import Mathlib

/-!
# Verification of the MSTY dividend calculator core

Shallow embedding of `src/services/financeService.js` and the projection
calculator of the dashboard component.  JS numbers are modelled as exact
rationals (`ℚ`); the random draws of `Math.random()` (values in `[0,1)`)
are passed in explicitly as parameters; the wall clock (`new Date()`) is
passed in as an explicit `Today` value.  A JS `Date` stores a timestamp;
we model a date built from civil components as the triple
(year, month 0–11, day) together with a linear `toDays` timestamp
function, and "today" additionally carries a time-of-day component so
that strict timestamp comparisons against a midnight date are faithful.
Local time is identified with UTC (the code's `toISOString` formatting).
-/

namespace MstyDividend

/-- Civil date triple as constructed by `new Date(year, monthIndex, day)`.
`month` is a 0-based index; `day` may be kept un-normalized at sites where
the JS code only ever uses the value through its timestamp (`toDays` below
is linear in `day`, exactly like the JS `Date` constructor / `setDate`). -/
structure JSDate where
  year : Int
  month : Int
  day : Int
deriving DecidableEq, Repr

/-- "Now" as observed by `new Date()`: a civil date plus the time elapsed
since local midnight (in milliseconds; only `= 0` vs `> 0` matters). -/
structure Today where
  date : JSDate
  tod : Nat
deriving DecidableEq, Repr

/-- The month names used by the service (and produced by
`toLocaleString('default', \x7b month: 'short' \x7d)`). -/
def monthNames : List String :=
  ["Jan", "Feb", "Mar", "Apr", "May", "Jun", "Jul", "Aug", "Sep", "Oct", "Nov", "Dec"]

/-- Short month name of a 0-based month index (empty for out-of-range). -/
def monthName (m : Int) : String :=
  if m < 0 then "" else monthNames.getD m.toNat ""

/-- `monthNames.indexOf(month)` — `-1` when the name is unknown. -/
def monthIndexOf (month : String) : Int :=
  match monthNames.findIdx? (fun s => s == month) with
  | some i => (i : Int)
  | none => -1

/-- Gregorian leap-year test. -/
def isLeapYear (y : Int) : Bool :=
  (y % 4 == 0 && y % 100 != 0) || (y % 400 == 0)

/-- Days in month `m` (0-based) of year `y`. -/
def daysInMonth (y : Int) (m : Int) : Int :=
  if m = 1 then (if isLeapYear y then 29 else 28)
  else if m = 3 ∨ m = 5 ∨ m = 8 ∨ m = 10 then 30
  else 31

/-- Number of days in the months of year `y` strictly before month `m`
(0-based, assumed in `0..11` at every use site). -/
def monthOffset (y : Int) (m : Int) : Int :=
  let leapAdd : Int := if isLeapYear y then 1 else 0
  if m ≤ 0 then 0
  else if m = 1 then 31
  else if m = 2 then 59 + leapAdd
  else if m = 3 then 90 + leapAdd
  else if m = 4 then 120 + leapAdd
  else if m = 5 then 151 + leapAdd
  else if m = 6 then 181 + leapAdd
  else if m = 7 then 212 + leapAdd
  else if m = 8 then 243 + leapAdd
  else if m = 9 then 273 + leapAdd
  else if m = 10 then 304 + leapAdd
  else 334 + leapAdd

/-- Days of the proleptic Gregorian years `0 ≤ y' < y` (extended to all
integers by floor division), so that `toDays` is a strictly monotone
timestamp for civil dates. -/
def daysBeforeYear (y : Int) : Int :=
  365 * y + (y + 3) / 4 - (y + 99) / 100 + (y + 399) / 400

/-- Timestamp (in days) of a `JSDate` at local midnight.  Linear in the
`day` field, matching JS `Date` normalization of day offsets. -/
def toDays (d : JSDate) : Int :=
  daysBeforeYear d.year + monthOffset d.year d.month + (d.day - 1)

/-- `new Date(year, monthIndex, day)`: JS normalizes the month index into
`0..11` with a year carry; the day offset is absorbed linearly by the
timestamp (`toDays`).  At every use site where a field of the result is
read directly, the supplied `day` is already in range. -/
def mkDateJS (y m d : Int) : JSDate :=
  { year := y + m / 12, month := m % 12, day := d }

/-- `date.setDate(n)`: replace the day-of-month, timestamp-linearly. -/
def setDateJS (d : JSDate) (n : Int) : JSDate :=
  { d with day := n }

/-- `d.setMonth(d.getMonth() + 1)` for a canonical date `d` (month in
`0..11`, day in `1..31`): carry the year, then JS rolls a day overflow
into the following month.  For canonical input the overflow is at most
`31 - 28 = 3` days, so a single roll suffices, and the overflowing month
is never December, so the roll needs no further year carry. -/
def addOneMonthJS (d : JSDate) : JSDate :=
  let ny := d.year + (d.month + 1) / 12
  let nm := (d.month + 1) % 12
  let dim := daysInMonth ny nm
  if dim < d.day then
    if nm = 11 then { year := ny + 1, month := 0, day := d.day - dim }
    else { year := ny, month := nm + 1, day := d.day - dim }
  else { year := ny, month := nm, day := d.day }

/-- `today > d` for a midnight date `d` (JS compares timestamps; `today`
may have a nonzero time of day). -/
def afterMidnight (t : Today) (d : JSDate) : Bool :=
  decide (toDays d < toDays t.date) ||
    (decide (toDays d = toDays t.date) && decide (0 < t.tod))

/-- `today >= d` for a midnight date `d`: the time of day is `≥ 0`, so
this is a pure day comparison. -/
def atOrAfterMidnight (t : Today) (d : JSDate) : Bool :=
  decide (toDays d ≤ toDays t.date)

/-- `today <= d` for a midnight date `d`. -/
def atOrBeforeMidnight (t : Today) (d : JSDate) : Bool :=
  decide (toDays t.date < toDays d) ||
    (decide (toDays t.date = toDays d) && decide (t.tod = 0))

/-- A dividend record.  The `exDate`/`payDate` ISO strings of the source
are modelled as the civil dates they denote; the optional JS truthy flags
(`estimated`, `announced`, `earlyAnnouncement`, `updated`) default to
`false` (absent). -/
structure DividendRecord where
  month : String
  year : Int
  dividend : ℚ
  yield : ℚ
  exDate : JSDate
  payDate : JSDate
  estimated : Bool := false
  announced : Bool := false
  earlyAnnouncement : Bool := false
  updated : Bool := false
deriving DecidableEq, Repr

/-- One `Math.random()` draw for each site that consumes randomness in a
single invocation of the reconciliation service (each execution path
reaches each site at most once). -/
structure Rand where
  announceGate : ℚ
  earlyGate : ℚ
  divVar : ℚ
  exVar : ℚ
  payVar : ℚ
deriving DecidableEq, Repr

/-- `generateExpectedDividend(historicalDividends, month, year)`: take the
6 most recent records, weight position `i` by `6 - i`, divide the
weighted sum by the total weight, and apply the multiplicative jitter
`0.7 + r * 0.6` where `r` is the `Math.random()` draw.  (`month`/`year`
are accepted and ignored, as in the source.  On an empty window the JS
code produces `NaN = 0/0`; in `ℚ`, `0/0 = 0`.) -/
def generateExpectedDividend (historicalDividends : List DividendRecord)
    (month : String) (year : Int) (r : ℚ) : ℚ :=
  let recentDividends := historicalDividends.take 6
  let weightedSum := (recentDividends.enum.map fun p => p.2.dividend * ((6 : ℚ) - (p.1 : ℚ))).sum
  let totalWeight := (recentDividends.enum.map fun p => ((6 : ℚ) - (p.1 : ℚ))).sum
  let baseExpectedDividend := weightedSum / totalWeight
  let variationFactor := 7 / 10 + r * (6 / 10)
  baseExpectedDividend * variationFactor

/-- The let-bound `baseExpectedDividend` of `generateExpectedDividend`
(the weighted average before the random jitter is applied). -/
def weightedBase (historicalDividends : List DividendRecord) : ℚ :=
  let recentDividends := historicalDividends.take 6
  let weightedSum := (recentDividends.enum.map fun p => p.2.dividend * ((6 : ℚ) - (p.1 : ℚ))).sum
  let totalWeight := (recentDividends.enum.map fun p => ((6 : ℚ) - (p.1 : ℚ))).sum
  weightedSum / totalWeight

/-- The pair of dates returned by `getExpectedPayoutDates`. -/
structure PayoutDates where
  exDate : JSDate
  payDate : JSDate
deriving DecidableEq, Repr

/-- `getExpectedPayoutDates(year, monthIndex)`: the ex-dividend day is
`5 + Math.floor(r1 * 4)` and the payment date is the ex-dividend date
plus `1 + Math.floor(r2 * 2)` days, where `r1`, `r2` are the two
`Math.random()` draws. -/
def getExpectedPayoutDates (year monthIndex : Int) (r1 r2 : ℚ) : PayoutDates :=
  let exDay : Int := 5 + ⌊r1 * 4⌋
  let exDate := mkDateJS year monthIndex exDay
  let payDate := setDateJS exDate (exDate.day + 1 + ⌊r2 * 2⌋)
  { exDate := exDate, payDate := payDate }

/-- `calculateYield(dividendAmount, price) = dividendAmount / price * 100`. -/
def calculateYield (dividendAmount price : ℚ) : ℚ :=
  dividendAmount / price * 100

/-- `x.toFixed(2)` (JS rounds half away from zero toward `+∞` on the
decimal expansion), kept as the rational it denotes. -/
def toFixed2 (x : ℚ) : ℚ :=
  ((⌊x * 100 + 1 / 2⌋ : ℤ) : ℚ) / 100

/-- `x.toFixed(4)`, kept as the rational it denotes. -/
def toFixed4 (x : ℚ) : ℚ :=
  ((⌊x * 10000 + 1 / 2⌋ : ℤ) : ℚ) / 10000

/-- `calculateAnnualizedYield(dividends, currentPrice)`: guard
`!dividends || dividends.length === 0 || !currentPrice` (for a rational
price, `!currentPrice` holds exactly when the price is `0`), then sum the
up-to-12 most recent amounts, scale by `12 / count`, divide by the price
and convert to percent. -/
def calculateAnnualizedYield (dividends : List DividendRecord) (currentPrice : ℚ) : ℚ :=
  if dividends.length = 0 ∨ currentPrice = 0 then 0
  else
    let recentDividends := dividends.take (min 12 dividends.length)
    let totalDividend := (recentDividends.map fun item => item.dividend).sum
    let annualFactor := 12 / (recentDividends.length : ℚ)
    let annualizedDividend := totalDividend * annualFactor
    annualizedDividend / currentPrice * 100

/-- `isInAnnouncementPeriod(currentDate, month, year)`: the expected
ex-dividend date is the 6th of the month; the announcement window is
`[exDate - 12 days, exDate - 3 days]`, compared by timestamp. -/
def isInAnnouncementPeriod (today : Today) (month : String) (year : Int) : Bool :=
  let monthIndex := monthIndexOf month
  if monthIndex = -1 then false
  else
    let expectedExDate := mkDateJS year monthIndex 6
    let announcementStart := setDateJS expectedExDate (expectedExDate.day - 12)
    let announcementEnd := setDateJS expectedExDate (expectedExDate.day - 3)
    atOrAfterMidnight today announcementStart && atOrBeforeMidnight today announcementEnd

/-- `shouldHavePaidDividend(currentDate, month, year)`: the expected
payment date is the 12th of the month; the payout is late when "now" is
strictly past that midnight timestamp. -/
def shouldHavePaidDividend (today : Today) (month : String) (year : Int) : Bool :=
  let monthIndex := monthIndexOf month
  if monthIndex = -1 then false
  else
    let expectedPayDate := mkDateJS year monthIndex 12
    afterMidnight today expectedPayDate

/-- `currentDividends.some(div => div.month === month && div.year === year)`. -/
def hasMonthRecord (divs : List DividendRecord) (month : String) (year : Int) : Bool :=
  divs.any fun div => div.month == month && div.year == year

/-- The dividend object literal each synthesizing branch builds: estimate
the amount from `divs`, compute its yield at the current price, pick the
payout dates for (`year`, `monthIndex`), and round for display.  The
branches differ only in the provenance flag they set on the result. -/
def mkSyntheticDividend (divs : List DividendRecord) (currentPrice : ℚ)
    (month : String) (year : Int) (monthIndex : Int) (rnd : Rand) : DividendRecord :=
  let expectedDividend := generateExpectedDividend divs month year rnd.divVar
  let expectedYield := calculateYield expectedDividend currentPrice
  let dates := getExpectedPayoutDates year monthIndex rnd.exVar rnd.payVar
  { month := month, year := year,
    dividend := toFixed4 expectedDividend,
    yield := toFixed2 expectedYield,
    exDate := dates.exDate, payDate := dates.payDate }

/-- `checkForNewDividendData(currentDividends, currentPrice)`, the
reconciliation routine, with the clock and the random draws explicit.
Branch order as in the source: (1) current month missing and overdue →
prepend an `estimated` record and return; (2) current month missing,
inside the announcement window, 30% gate → prepend an `announced` record
and return; (3) otherwise, when the next month is missing, today's day is
`≥ 25`, the next month's announcement window applies and the 25% gate
passes → prepend an `announced`+`earlyAnnouncement` record; else return
the input unchanged.  (The surrounding `try/catch` has no failing
operation in this model.) -/
def checkForNewDividendData (currentDividends : List DividendRecord) (currentPrice : ℚ)
    (today : Today) (rnd : Rand) : List DividendRecord :=
  let currentMonth := monthName today.date.month
  let currentYear := today.date.year
  let hasCurrentMonth := hasMonthRecord currentDividends currentMonth currentYear
  if !hasCurrentMonth && shouldHavePaidDividend today currentMonth currentYear then
    { mkSyntheticDividend currentDividends currentPrice currentMonth currentYear
        today.date.month rnd with estimated := true } :: currentDividends
  else if !hasCurrentMonth && isInAnnouncementPeriod today currentMonth currentYear
      && decide (rnd.announceGate < 3 / 10) then
    { mkSyntheticDividend currentDividends currentPrice currentMonth currentYear
        today.date.month rnd with announced := true } :: currentDividends
  else
    let nextMonthDate := addOneMonthJS today.date
    let nextMonthName := monthName nextMonthDate.month
    let nextYear := nextMonthDate.year
    let hasNextMonth := hasMonthRecord currentDividends nextMonthName nextYear
    if !hasNextMonth && decide (25 ≤ today.date.day)
        && isInAnnouncementPeriod today nextMonthName nextYear
        && decide (rnd.earlyGate < 1 / 4) then
      { mkSyntheticDividend currentDividends currentPrice nextMonthName nextYear
          nextMonthDate.month rnd with announced := true, earlyAnnouncement := true }
        :: currentDividends
    else
      currentDividends

/-- `forceUpdateCurrentMonth(currentDividends, currentPrice)`: drop every
record of the current (month, year), synthesize a fresh one from the
filtered list, tag it `updated`, and prepend it. -/
def forceUpdateCurrentMonth (currentDividends : List DividendRecord) (currentPrice : ℚ)
    (today : Today) (rnd : Rand) : List DividendRecord :=
  let currentMonth := monthName today.date.month
  let currentYear := today.date.year
  let filteredDividends := currentDividends.filter fun div =>
    !(div.month == currentMonth && div.year == currentYear)
  { mkSyntheticDividend filteredDividends currentPrice currentMonth currentYear
      today.date.month rnd with updated := true } :: filteredDividends

/-- The dashboard's average monthly dividend (`loadData`): total of all
amounts divided by the record count. -/
def averageMonthlyDividendOf (dividendHistory : List DividendRecord) : ℚ :=
  (dividendHistory.map fun item => item.dividend).sum / (dividendHistory.length : ℚ)

/-- Numeric projection figures of the dashboard's `calculateReturns`
(before `toFixed(2)` display formatting; the two chart lists, which
merely re-tabulate `amount × sharesOwned` per record, are presentation
data and are not modelled). -/
structure ReturnsResult where
  sharesOwned : ℚ
  expectedMonthlyDividend : ℚ
  expectedAnnualDividend : ℚ
  expectedAnnualYieldPercentage : ℚ
  historicalReturn : ℚ
  isCustomScenario : Bool
deriving DecidableEq, Repr

/-- `calculateReturns(amount)` of the dashboard component: `null` when the
price is missing/zero; otherwise shares = amount / price, the effective
dividend is the custom scenario amount when one is active and the
historical average otherwise, and the income/yield/trailing-return
figures follow.  `averageMonthlyDividend` is the component state set by
`loadData` (see `averageMonthlyDividendOf`). -/
def calculateReturns (amount currentPrice : ℚ) (dividendHistory : List DividendRecord)
    (averageMonthlyDividend : ℚ) (useCustomDividend : Bool)
    (customDividendAmount : Option ℚ) : Option ReturnsResult :=
  if currentPrice = 0 then none
  else
    let sharesOwned := amount / currentPrice
    let effectiveDividendAmount :=
      match useCustomDividend, customDividendAmount with
      | true, some c => c
      | _, _ => averageMonthlyDividend
    let expectedMonthlyDividend := effectiveDividendAmount * sharesOwned
    let expectedAnnualDividend := expectedMonthlyDividend * 12
    let effectiveAnnualYield := effectiveDividendAmount * 12 / currentPrice * 100
    let lastYearDividends := dividendHistory.take (min 12 dividendHistory.length)
    let historicalDividendTotal := (lastYearDividends.map fun item => item.dividend).sum
    let historicalReturn := historicalDividendTotal * sharesOwned
    some { sharesOwned := sharesOwned,
           expectedMonthlyDividend := expectedMonthlyDividend,
           expectedAnnualDividend := expectedAnnualDividend,
           expectedAnnualYieldPercentage := effectiveAnnualYield,
           historicalReturn := historicalReturn,
           isCustomScenario := useCustomDividend && customDividendAmount.isSome }

/-! ## Sample data for witnesses and counterexamples -/

/-- The May 2025 record of the repository's fallback dividend table. -/
def mayRecord : DividendRecord :=
  { month := "May", year := 2025, dividend := 23734 / 10000, yield := 945 / 100,
    exDate := { year := 2025, month := 4, day := 8 },
    payDate := { year := 2025, month := 4, day := 9 } }

/-- A record with a given amount, for exercising the estimation window. -/
def amountRec (q : ℚ) : DividendRecord :=
  { month := "Jan", year := 2025, dividend := q, yield := 0,
    exDate := { year := 2025, month := 0, day := 6 },
    payDate := { year := 2025, month := 0, day := 7 } }

/-- A six-record series whose amounts, newest first, are 60, 50, 40, 30, 20, 10. -/
def sixtySeries : List DividendRecord :=
  [amountRec 60, amountRec 50, amountRec 40, amountRec 30, amountRec 20, amountRec 10]

/-! ## Claim theorems -/

/-- C5: for every non-empty series and positive price,
`calculateAnnualizedYield` equals the sum of the up-to-12 most recent
amounts, times `12 / min 12 count`, divided by the price, times 100. -/
theorem calculateAnnualizedYield_formula (dividends : List DividendRecord)
    (currentPrice : ℚ) (hne : dividends ≠ []) (hp : 0 < currentPrice) :
    calculateAnnualizedYield dividends currentPrice =
      ((dividends.take 12).map fun d => d.dividend).sum *
        (12 / ((min 12 dividends.length : ℕ) : ℚ)) / currentPrice * 100 := by
  have hlen : dividends.length ≠ 0 := by
    simpa [List.length_eq_zero] using hne
  have htake : dividends.take (min 12 dividends.length) = dividends.take 12 := by
    apply List.take_eq_take.mpr
    omega
  rw [calculateAnnualizedYield, if_neg (by push_neg; exact ⟨hlen, ne_of_gt hp⟩)]
  simp only [htake, List.length_take]

/-- Witness for C5 at the May 2025 record and price 1. -/
theorem calculateAnnualizedYield_formula_witness :
    [mayRecord] ≠ ([] : List DividendRecord) ∧ (0 : ℚ) < 1 ∧
      calculateAnnualizedYield [mayRecord] 1 =
        (([mayRecord].take 12).map fun d => d.dividend).sum *
          (12 / ((min 12 [mayRecord].length : ℕ) : ℚ)) / 1 * 100 :=
  ⟨by simp, by norm_num,
    calculateAnnualizedYield_formula [mayRecord] 1 (by simp) (by norm_num)⟩

/-- C6 counterexample: on a non-empty series and the negative price `-1`
(a non-positive price), `calculateAnnualizedYield` does not return 0 —
the JS guard `!currentPrice` only catches a zero price. -/
theorem calculateAnnualizedYield_negative_price_counterexample :
    calculateAnnualizedYield [mayRecord] (-1) ≠ 0 := by
  norm_num [calculateAnnualizedYield, mayRecord]

/-- C6 amended: `calculateAnnualizedYield` returns 0 whenever the series
is empty (for every price) and whenever the price is zero (for every
series); a negative price is not neutralized. -/
theorem calculateAnnualizedYield_zero_cases :
    (∀ price : ℚ, calculateAnnualizedYield [] price = 0) ∧
      ∀ dividends : List DividendRecord, calculateAnnualizedYield dividends 0 = 0 := by
  constructor
  · intro price
    simp [calculateAnnualizedYield]
  · intro dividends
    simp [calculateAnnualizedYield]

/-- C4 counterexample: on the series with amounts 60, 50, 40, 30, 20, 10
(newest first), the unjittered weighted base is `910/21`, not `700/21`,
and the draw `r = 9/10` produces an estimate above the claimed upper
bound `700/21 × 1.3 ≈ 43.33`. -/
theorem generateExpectedDividend_claimed_interval_counterexample :
    weightedBase sixtySeries = 910 / 21 ∧ (910 : ℚ) / 21 ≠ 700 / 21 ∧
      700 / 21 * (13 / 10) <
        generateExpectedDividend sixtySeries "Jun" 2025 (9 / 10) := by
  refine ⟨?_, by norm_num, ?_⟩
  · norm_num [weightedBase, sixtySeries, amountRec, List.enum, List.enumFrom]
  · norm_num [generateExpectedDividend, sixtySeries, amountRec, List.enum, List.enumFrom]

/-- C4 amended: for every series whose 6 most recent amounts are (newest
first) 60, 50, 40, 30, 20, 10, the unjittered weighted base equals
`(60×6+50×5+40×4+30×3+20×2+10×1)/(6+5+4+3+2+1) = 910/21 ≈ 43.33`, and for
every jitter draw `r ∈ [0,1)` the produced estimate lies within ±30% of
this base, i.e. in `[910/21 × 0.7, 910/21 × 1.3] ≈ [30.33, 56.33]`. -/
theorem generateExpectedDividend_window_bounds
    (d1 d2 d3 d4 d5 d6 : DividendRecord) (rest : List DividendRecord)
    (month : String) (year : Int) (r : ℚ)
    (h1 : d1.dividend = 60) (h2 : d2.dividend = 50) (h3 : d3.dividend = 40)
    (h4 : d4.dividend = 30) (h5 : d5.dividend = 20) (h6 : d6.dividend = 10)
    (hr0 : 0 ≤ r) (hr1 : r < 1) :
    weightedBase (d1 :: d2 :: d3 :: d4 :: d5 :: d6 :: rest) = 910 / 21 ∧
      910 / 21 * (7 / 10) ≤
        generateExpectedDividend (d1 :: d2 :: d3 :: d4 :: d5 :: d6 :: rest) month year r ∧
      generateExpectedDividend (d1 :: d2 :: d3 :: d4 :: d5 :: d6 :: rest) month year r ≤
        910 / 21 * (13 / 10) := by
  have htake : (d1 :: d2 :: d3 :: d4 :: d5 :: d6 :: rest).take 6 =
      [d1, d2, d3, d4, d5, d6] := rfl
  have hbase : weightedBase (d1 :: d2 :: d3 :: d4 :: d5 :: d6 :: rest) = 910 / 21 := by
    rw [weightedBase, htake]
    simp [List.enum, List.enumFrom, h1, h2, h3, h4, h5, h6]
    norm_num
  have hgen : generateExpectedDividend (d1 :: d2 :: d3 :: d4 :: d5 :: d6 :: rest) month year r =
      910 / 21 * (7 / 10 + r * (6 / 10)) := by
    rw [generateExpectedDividend, htake]
    simp [List.enum, List.enumFrom, h1, h2, h3, h4, h5, h6]
    norm_num
  refine ⟨hbase, ?_, ?_⟩
  · rw [hgen]; nlinarith
  · rw [hgen]; nlinarith

/-- Witness for the amended C4 at the concrete series and `r = 1/2`. -/
theorem generateExpectedDividend_window_bounds_witness :
    (amountRec 60).dividend = 60 ∧ (0 : ℚ) ≤ 1 / 2 ∧ (1 : ℚ) / 2 < 1 ∧
      (weightedBase sixtySeries = 910 / 21 ∧
        910 / 21 * (7 / 10) ≤ generateExpectedDividend sixtySeries "Jun" 2025 (1 / 2) ∧
        generateExpectedDividend sixtySeries "Jun" 2025 (1 / 2) ≤ 910 / 21 * (13 / 10)) :=
  ⟨rfl, by norm_num, by norm_num,
    generateExpectedDividend_window_bounds (amountRec 60) (amountRec 50) (amountRec 40)
      (amountRec 30) (amountRec 20) (amountRec 10) [] "Jun" 2025 (1 / 2)
      rfl rfl rfl rfl rfl rfl (by norm_num) (by norm_num)⟩

/-- C8 counterexample: at investment 10000, price 25.12, the series
holding only the May 2025 record (amount 2.3734) and no custom scenario,
the monthly income figure is 944.82 (to two decimals), not 944.58. -/
theorem calculateReturns_income_counterexample :
    (calculateReturns 10000 (2512 / 100) [mayRecord]
          (averageMonthlyDividendOf [mayRecord]) false none).map
        (fun r => toFixed2 r.expectedMonthlyDividend) = some (94482 / 100) ∧
      (94482 : ℚ) / 100 ≠ 94458 / 100 := by
  constructor
  · norm_num [calculateReturns, averageMonthlyDividendOf, mayRecord, toFixed2]
  · norm_num

/-- C8 amended: the same scenario yields `sharesOwned = 10000 / 25.12 ≈
398.09` and `expectedMonthlyIncome = mean × sharesOwned ≈ 944.82`, the
exact figures being reproducible from the stated formulas. -/
theorem calculateReturns_scenario :
    ∃ r : ReturnsResult,
      calculateReturns 10000 (2512 / 100) [mayRecord]
          (averageMonthlyDividendOf [mayRecord]) false none = some r ∧
        r.sharesOwned = 10000 / (2512 / 100) ∧
        r.expectedMonthlyDividend = averageMonthlyDividendOf [mayRecord] * r.sharesOwned ∧
        toFixed2 r.sharesOwned = 39809 / 100 ∧
        toFixed2 r.expectedMonthlyDividend = 94482 / 100 := by
  refine ⟨{ sharesOwned := 62500 / 157, expectedMonthlyDividend := 296675 / 314,
            expectedAnnualDividend := 1780050 / 157,
            expectedAnnualYieldPercentage := 35601 / 314,
            historicalReturn := 296675 / 314, isCustomScenario := false }, ?_, ?_, ?_, ?_, ?_⟩
  · norm_num [calculateReturns, averageMonthlyDividendOf, mayRecord]
  · norm_num
  · norm_num [averageMonthlyDividendOf, mayRecord]
  · norm_num [toFixed2]
  · norm_num [toFixed2]

/-- The timestamp of `setDate` moves linearly with the day argument. -/
theorem toDays_setDateJS (d : JSDate) (n : Int) :
    toDays (setDateJS d n) = toDays d + (n - d.day) := by
  simp [toDays, setDateJS]
  ring

/-- C7: for every year, every month index and every pair of draws in
`[0,1)`, the ex-dividend day of `getExpectedPayoutDates` lies in `[5,8]`
and the payment date is exactly 1 or 2 days after the ex-dividend date —
in particular not before it. -/
theorem getExpectedPayoutDates_bounds (year monthIndex : Int) (r1 r2 : ℚ)
    (h10 : 0 ≤ r1) (h11 : r1 < 1) (h20 : 0 ≤ r2) (h21 : r2 < 1) :
    (5 ≤ (getExpectedPayoutDates year monthIndex r1 r2).exDate.day ∧
        (getExpectedPayoutDates year monthIndex r1 r2).exDate.day ≤ 8) ∧
      (toDays (getExpectedPayoutDates year monthIndex r1 r2).payDate =
          toDays (getExpectedPayoutDates year monthIndex r1 r2).exDate + 1 ∨
        toDays (getExpectedPayoutDates year monthIndex r1 r2).payDate =
          toDays (getExpectedPayoutDates year monthIndex r1 r2).exDate + 2) ∧
      toDays (getExpectedPayoutDates year monthIndex r1 r2).exDate ≤
        toDays (getExpectedPayoutDates year monthIndex r1 r2).payDate := by
  have hf10 : (0 : ℤ) ≤ ⌊r1 * 4⌋ := by
    apply Int.le_floor.mpr
    push_cast
    nlinarith
  have hf11 : ⌊r1 * 4⌋ < 4 := by
    apply Int.floor_lt.mpr
    push_cast
    nlinarith
  have hf20 : (0 : ℤ) ≤ ⌊r2 * 2⌋ := by
    apply Int.le_floor.mpr
    push_cast
    nlinarith
  have hf21 : ⌊r2 * 2⌋ < 2 := by
    apply Int.floor_lt.mpr
    push_cast
    nlinarith
  have hex : (getExpectedPayoutDates year monthIndex r1 r2).exDate =
      mkDateJS year monthIndex (5 + ⌊r1 * 4⌋) := rfl
  have hpay : toDays (getExpectedPayoutDates year monthIndex r1 r2).payDate =
      toDays (getExpectedPayoutDates year monthIndex r1 r2).exDate + (1 + ⌊r2 * 2⌋) := by
    show toDays (setDateJS _ _) = _
    rw [toDays_setDateJS, hex]
    ring
  have hday : (getExpectedPayoutDates year monthIndex r1 r2).exDate.day = 5 + ⌊r1 * 4⌋ := rfl
  refine ⟨⟨?_, ?_⟩, ?_, ?_⟩
  · rw [hday]; omega
  · rw [hday]; omega
  · rw [hpay]
    rcases (by omega : ⌊r2 * 2⌋ = 0 ∨ ⌊r2 * 2⌋ = 1) with h | h <;> rw [h]
    · left; ring
    · right; ring
  · rw [hpay]; omega

/-- Witness for C7 at year 1, month 0, draws `1/2`. -/
theorem getExpectedPayoutDates_bounds_witness :
    (0 : ℚ) ≤ 1 / 2 ∧ (1 : ℚ) / 2 < 1 ∧
      ((5 ≤ (getExpectedPayoutDates 1 0 (1 / 2) (1 / 2)).exDate.day ∧
          (getExpectedPayoutDates 1 0 (1 / 2) (1 / 2)).exDate.day ≤ 8) ∧
        (toDays (getExpectedPayoutDates 1 0 (1 / 2) (1 / 2)).payDate =
            toDays (getExpectedPayoutDates 1 0 (1 / 2) (1 / 2)).exDate + 1 ∨
          toDays (getExpectedPayoutDates 1 0 (1 / 2) (1 / 2)).payDate =
            toDays (getExpectedPayoutDates 1 0 (1 / 2) (1 / 2)).exDate + 2) ∧
        toDays (getExpectedPayoutDates 1 0 (1 / 2) (1 / 2)).exDate ≤
          toDays (getExpectedPayoutDates 1 0 (1 / 2) (1 / 2)).payDate) :=
  ⟨by norm_num, by norm_num,
    getExpectedPayoutDates_bounds 1 0 (1 / 2) (1 / 2)
      (by norm_num) (by norm_num) (by norm_num) (by norm_num)⟩

/-- A `some`-style membership test coming back `false` means no record of
the list carries the given (month, year). -/
theorem hasMonthRecord_false_iff (divs : List DividendRecord) (m : String) (y : Int) :
    hasMonthRecord divs m y = false ↔ ∀ d ∈ divs, ¬(d.month = m ∧ d.year = y) := by
  simp [hasMonthRecord]

/-- Shape of a single reconciliation step: the result is either the input
itself, or the input with one record prepended whose (month, year) did not
occur in the input. -/
theorem checkForNewDividendData_shape (divs : List DividendRecord) (price : ℚ)
    (today : Today) (rnd : Rand) :
    checkForNewDividendData divs price today rnd = divs ∨
      ∃ rec, checkForNewDividendData divs price today rnd = rec :: divs ∧
        ∀ d ∈ divs, ¬(d.month = rec.month ∧ d.year = rec.year) := by
  simp only [checkForNewDividendData]
  split
  · next hcond =>
    right
    rw [Bool.and_eq_true, Bool.not_eq_true'] at hcond
    refine ⟨_, rfl, ?_⟩
    intro d hd
    simpa [mkSyntheticDividend] using
      (hasMonthRecord_false_iff divs _ _).mp hcond.1 d hd
  · split
    · next hcond =>
      right
      rw [Bool.and_eq_true, Bool.and_eq_true, Bool.not_eq_true'] at hcond
      refine ⟨_, rfl, ?_⟩
      intro d hd
      simpa [mkSyntheticDividend] using
        (hasMonthRecord_false_iff divs _ _).mp hcond.1.1 d hd
    · split
      · next hcond =>
        right
        rw [Bool.and_eq_true, Bool.and_eq_true, Bool.and_eq_true,
          Bool.not_eq_true'] at hcond
        refine ⟨_, rfl, ?_⟩
        intro d hd
        simpa [mkSyntheticDividend] using
          (hasMonthRecord_false_iff divs _ _).mp hcond.1.1.1 d hd
      · left
        rfl

/-- At most one record per (month, year) in a series. -/
def atMostOnePerMonthYear (l : List DividendRecord) : Prop :=
  l.Pairwise fun a b => ¬(a.month = b.month ∧ a.year = b.year)

/-- One reconciliation step preserves (month, year)-uniqueness. -/
theorem checkForNewDividendData_preserves_unique (divs : List DividendRecord) (price : ℚ)
    (today : Today) (rnd : Rand) (h : atMostOnePerMonthYear divs) :
    atMostOnePerMonthYear (checkForNewDividendData divs price today rnd) := by
  rcases checkForNewDividendData_shape divs price today rnd with heq | ⟨rec, hrec, hall⟩
  · rwa [heq]
  · rw [hrec]
    exact List.Pairwise.cons
      (fun d hd hmatch => hall d hd ⟨hmatch.1.symm, hmatch.2.symm⟩) h

/-- C2: reconciliation preserves the at-most-one-record-per-(month, year)
invariant, and in particular applying it twice at the same evaluation
instant (same clock, fresh random draws) never produces two records for
the same (month, year). -/
theorem reconcile_keeps_months_unique (divs : List DividendRecord) (price : ℚ)
    (today : Today) (rnd1 rnd2 : Rand) (h : atMostOnePerMonthYear divs) :
    atMostOnePerMonthYear (checkForNewDividendData divs price today rnd1) ∧
      atMostOnePerMonthYear (checkForNewDividendData
        (checkForNewDividendData divs price today rnd1) price today rnd2) :=
  ⟨checkForNewDividendData_preserves_unique divs price today rnd1 h,
    checkForNewDividendData_preserves_unique _ price today rnd2
      (checkForNewDividendData_preserves_unique divs price today rnd1 h)⟩

/-- A clock value used by concrete witnesses: June 15, 2025, at midnight. -/
def sampleToday : Today :=
  { date := { year := 2025, month := 5, day := 15 }, tod := 0 }

/-- Random draws used by concrete witnesses. -/
def sampleRand : Rand :=
  { announceGate := 1 / 2, earlyGate := 1 / 2, divVar := 1 / 2,
    exVar := 1 / 2, payVar := 1 / 2 }

/-- Witness for C2 on the singleton May 2025 series. -/
theorem reconcile_keeps_months_unique_witness :
    atMostOnePerMonthYear [mayRecord] ∧
      (atMostOnePerMonthYear (checkForNewDividendData [mayRecord] 1 sampleToday sampleRand) ∧
        atMostOnePerMonthYear (checkForNewDividendData
          (checkForNewDividendData [mayRecord] 1 sampleToday sampleRand)
          1 sampleToday sampleRand)) :=
  ⟨List.pairwise_singleton _ _,
    reconcile_keeps_months_unique [mayRecord] 1 sampleToday sampleRand sampleRand
      (List.pairwise_singleton _ _)⟩

/-- C9: reconciliation never mutates or removes an existing record — the
output is the input series, possibly with a single synthesized record
inserted as the first element. -/
theorem reconcile_preserves_existing (divs : List DividendRecord) (price : ℚ)
    (today : Today) (rnd : Rand) :
    checkForNewDividendData divs price today rnd = divs ∨
      ∃ rec, checkForNewDividendData divs price today rnd = rec :: divs := by
  rcases checkForNewDividendData_shape divs price today rnd with heq | ⟨rec, hrec, -⟩
  · exact Or.inl heq
  · exact Or.inr ⟨rec, hrec⟩

/-- C10: a single reconciliation adds at most one record, for every input
and clock — every synthesizing branch returns immediately, so a
current-month addition and a next-month early announcement cannot both
happen in one call. -/
theorem reconcile_adds_at_most_one (divs : List DividendRecord) (price : ℚ)
    (today : Today) (rnd : Rand) :
    (checkForNewDividendData divs price today rnd).length ≤ divs.length + 1 := by
  rcases checkForNewDividendData_shape divs price today rnd with heq | ⟨rec, hrec, -⟩
  · rw [heq]
    omega
  · rw [hrec]
    simp

/-- C3: `forceUpdateCurrentMonth` removes every pre-existing record for
the current (month, year) — leaving all other records unchanged, in
order — and prepends exactly one freshly synthesized record tagged
`updated`, so the output holds exactly one current-month record. -/
theorem forceUpdateCurrentMonth_exactly_one (divs : List DividendRecord) (price : ℚ)
    (today : Today) (rnd : Rand) :
    ∃ rec, forceUpdateCurrentMonth divs price today rnd =
        rec :: divs.filter (fun d =>
          !(d.month == monthName today.date.month && d.year == today.date.year)) ∧
      rec.month = monthName today.date.month ∧ rec.year = today.date.year ∧
      rec.updated = true ∧
      ((forceUpdateCurrentMonth divs price today rnd).filter (fun d =>
          d.month == monthName today.date.month && d.year == today.date.year)).length
        = 1 := by
  refine ⟨_, rfl, by simp [mkSyntheticDividend], by simp [mkSyntheticDividend], rfl, ?_⟩
  show (List.filter _ (_ :: _)).length = 1
  rw [List.filter_cons_of_pos (by simp [mkSyntheticDividend]), List.filter_filter]
  simp

/-- C1: when no record exists for the current (month, year) and the clock
reads a day strictly after the 12th of a (well-formed) current month, a
single reconciliation step deterministically prepends exactly one new
record for the current (month, year), tagged `estimated`, for every
outcome of the random draws. -/
theorem reconcile_overdue_estimates (divs : List DividendRecord) (price : ℚ)
    (today : Today) (rnd : Rand)
    (hm0 : 0 ≤ today.date.month) (hm1 : today.date.month < 12)
    (hday : 13 ≤ today.date.day)
    (hno : ∀ d ∈ divs, ¬(d.month = monthName today.date.month ∧
      d.year = today.date.year)) :
    ∃ rec, checkForNewDividendData divs price today rnd = rec :: divs ∧
      rec.month = monthName today.date.month ∧ rec.year = today.date.year ∧
      rec.estimated = true ∧ rec.announced = false ∧ rec.updated = false := by
  obtain ⟨⟨y, m, d⟩, tod⟩ := today
  simp only at hm0 hm1 hday hno ⊢
  have hhas : hasMonthRecord divs (monthName m) y = false :=
    (hasMonthRecord_false_iff divs _ _).mpr hno
  have hidx : monthIndexOf (monthName m) = m := by
    interval_cases m <;> rfl
  have hshould : shouldHavePaidDividend ⟨⟨y, m, d⟩, tod⟩ (monthName m) y = true := by
    unfold shouldHavePaidDividend
    rw [hidx, if_neg (by omega : ¬(m = -1))]
    unfold afterMidnight
    rw [Bool.or_eq_true, decide_eq_true_eq]
    left
    show toDays (mkDateJS y m 12) < toDays { year := y, month := m, day := d }
    unfold toDays mkDateJS
    have h12 : m / 12 = 0 := by omega
    have hmod : m % 12 = m := by omega
    simp only [h12, hmod, add_zero]
    omega
  simp only [checkForNewDividendData]
  rw [if_pos (by rw [hhas, hshould]; rfl)]
  exact ⟨_, rfl, by simp [mkSyntheticDividend], by simp [mkSyntheticDividend], rfl, rfl, rfl⟩

/-- Witness for C1: empty series, June 15, 2025. -/
theorem reconcile_overdue_estimates_witness :
    (0 ≤ sampleToday.date.month ∧ sampleToday.date.month < 12 ∧
        13 ≤ sampleToday.date.day) ∧
      ∃ rec, checkForNewDividendData [] 1 sampleToday sampleRand = rec :: [] ∧
        rec.month = monthName sampleToday.date.month ∧
        rec.year = sampleToday.date.year ∧
        rec.estimated = true ∧ rec.announced = false ∧ rec.updated = false :=
  ⟨⟨by norm_num [sampleToday], by norm_num [sampleToday], by norm_num [sampleToday]⟩,
    reconcile_overdue_estimates [] 1 sampleToday sampleRand
      (by norm_num [sampleToday]) (by norm_num [sampleToday]) (by norm_num [sampleToday])
      (by simp)⟩

end MstyDividend
